import Mathlib

/-!
Verification development for the SmartWardrobeAI front-end's API
request/response normalization layer and its client-side image
normalization utility.

The embedding models:
* the JSON wire values the request wrappers inspect (`Json`),
* the thrown JavaScript error values (`JsError`), identified by their
  `name`/class discriminator exactly as the source constructs them,
* the credential store (`StoreState`) with the operations the wrappers use,
* `apiRequest` (src/unnamed/part_001, lines 58-179),
* `apiRequestFormData` (src/unnamed/part_001, lines 363-469),
* `authRequest` (src/services/authService.ts, lines 30-106),
* `calculateTargetSize` / `compressToSize` (src/utils/imageCompression.ts).

JavaScript numbers in the envelope positions the code inspects are modelled
as integers (`Int`); the backend status codes compared against the literals
`200` and `0` are integral, and no other arithmetic is performed on them.
The image-compression quality arithmetic is modelled over `ℚ` (exact real
semantics of the JS float expressions involved, whose values stay far from
any rounding boundary in every statement proved here).
-/

namespace WardrobeSpec

/-- JSON values as delivered by `response.json()` / `JSON.parse`. -/
inductive Json where
  | null : Json
  | bool : Bool → Json
  | num : Int → Json
  | str : String → Json
  | arr : List Json → Json
  | obj : List (String × Json) → Json
deriving Repr

/-- Property access `j.k` on a parsed JSON value: defined (`some`) exactly
when the value is an object with that key; on primitives and arrays the
envelope keys the code probes are absent, which JavaScript reports as
`undefined` (`none`). Access on `null` is modelled separately at the call
sites that perform it (it throws a `TypeError` in JavaScript). -/
def Json.getField : Json → String → Option Json
  | .obj fs, k => (fs.find? (fun p => p.1 == k)).map (fun p => p.2)
  | _, _ => none

/-- JavaScript truthiness of a parsed JSON value. -/
def jsTruthy : Json → Bool
  | .null => false
  | .bool b => b
  | .num n => n != 0
  | .str s => s != ""
  | .arr _ => true
  | .obj _ => true

/-- The guard `jsonData && typeof jsonData === 'object'`:
`typeof` is `'object'` for objects, arrays and `null`, but `null` is falsy. -/
def isObjectLike : Json → Bool
  | .arr _ => true
  | .obj _ => true
  | _ => false

/-- Strict equality `v === 200` (so also `v !== 200` by negation). -/
def isNum200 : Json → Bool
  | .num n => n == 200
  | _ => false

/-- Strict equality `v === 0`. -/
def isNum0 : Json → Bool
  | .num n => n == 0
  | _ => false

/-- Strict equality `v === false`. -/
def isBoolFalse : Json → Bool
  | .bool false => true
  | _ => false

mutual
/-- JavaScript string coercion of a value, as performed by template
literals and by the `Error` constructor on its message argument. -/
def jsToString : Json → String
  | .null => "null"
  | .bool true => "true"
  | .bool false => "false"
  | .num n => toString n
  | .str s => s
  | .arr xs => jsArrToString xs
  | .obj _ => "[object Object]"

/-- `Array.prototype.toString` joins elements with `","`, rendering `null`
elements as the empty string. -/
def jsArrToString : List Json → String
  | [] => ""
  | [.null] => ""
  | [x] => jsToString x
  | .null :: xs => "," ++ jsArrToString xs
  | x :: xs => jsToString x ++ "," ++ jsArrToString xs
end

/-- The expression `field || fallback`: an absent (`undefined`) or falsy
field selects the fallback. -/
def fieldOr (f : Option Json) (fallback : Json) : Json :=
  match f with
  | some v => if jsTruthy v then v else fallback
  | none => fallback

/-- The chain `x.message || x.error || x.msg || fallback` used by both
request wrappers to extract a backend-supplied message. -/
def pickBackendMsg (j : Json) (fallback : Json) : Json :=
  fieldOr (j.getField "message")
    (fieldOr (j.getField "error")
      (fieldOr (j.getField "msg") fallback))

/-- Prefix test on character lists. -/
def charsHavePrefix : List Char → List Char → Bool
  | _, [] => true
  | [], _ :: _ => false
  | c :: cs, p :: ps => c == p && charsHavePrefix cs ps

/-- Substring test on character lists. -/
def charsContain : List Char → List Char → Bool
  | [], pat => pat.isEmpty
  | c :: cs, pat => charsHavePrefix (c :: cs) pat || charsContain cs pat

/-- Substring test `s.includes pat`. -/
def strContains (s pat : String) : Bool :=
  charsContain s.data pat.data

/-- A thrown JavaScript error value. `name` is the discriminator JavaScript
exposes for the error's class (`Error`, `UnauthorizedError`,
`BusinessError`, `SyntaxError`, `TypeError`, `AbortError`); `code`,
`reason` and `rawResponse` are the extra fields `BusinessError` carries. -/
structure JsError where
  name : String
  message : String
  code : Option Json := none
  reason : Option Json := none
  rawResponse : Option Json := none
deriving Repr

/-- Result of a request wrapper: resolve with a JSON value or reject with a
thrown error. -/
inductive ApiResult where
  | ok : Json → ApiResult
  | err : JsError → ApiResult
deriving Repr

/-- Name discriminator of the rejection, if the call rejected. -/
def ApiResult.errName : ApiResult → Option String
  | .err e => some e.name
  | .ok _ => none

/-- Message of the rejection, if the call rejected. -/
def ApiResult.errMessage : ApiResult → Option String
  | .err e => some e.message
  | .ok _ => none

/-- `code` field of the rejection, if the call rejected with one. -/
def ApiResult.errCode : ApiResult → Option Json
  | .err e => e.code
  | .ok _ => none

/-- The credential store (localStorage-backed `StorageService`): the bearer
token and the cached user-info record. -/
structure StoreState where
  token : Option String
  userInfo : Option String
deriving Repr, DecidableEq

namespace StorageService

/-- `StorageService.loadToken`. -/
def loadToken (st : StoreState) : Option String := st.token

/-- `StorageService.clearToken`. -/
def clearToken (st : StoreState) : StoreState := { st with token := none }

/-- `StorageService.clearUserInfo`. -/
def clearUserInfo (st : StoreState) : StoreState := { st with userInfo := none }

end StorageService

/-- The body of an HTTP response as seen through `response.json()` /
`JSON.parse`: either it parses to a JSON value, or parsing throws a
`SyntaxError` whose (engine-supplied) message is the first component; the
second component is the raw body text. An empty body is an instance of
`invalidBody` (empty text is not valid JSON; `apiRequestFormData`
additionally short-circuits it explicitly, with the same outcome). -/
inductive Body where
  | jsonBody : Json → Body
  | invalidBody : String → String → Body
deriving Repr

/-- What the `fetch` promise produced: a settled HTTP response, a rejection
with the abort `DOMException` (name `AbortError`) after
`controller.abort()`, or a network-level `TypeError` (message mentioning
"fetch" for connection failures). -/
inductive FetchResult where
  | response : Nat → String → Body → FetchResult
  | abortError : FetchResult
  | typeError : String → FetchResult
deriving Repr

/-- `response.ok`: HTTP status in the 2xx range. -/
def responseOk (status : Nat) : Bool :=
  200 ≤ status && status ≤ 299

/-- Outcome of one wrapper call: the settled result, the credential store
afterwards, and how many times the unauthorized callback ran. -/
structure RequestOutcome where
  result : ApiResult
  store : StoreState
  callbackCalls : Nat
deriving Repr

/-- Key-update on a JavaScript object literal viewed as an ordered
association list: overwrite in place if the key exists, else append. -/
def objSet (hs : List (String × String)) (k v : String) : List (String × String) :=
  if hs.any (fun p => p.1 == k) then
    hs.map (fun p => if p.1 == k then (k, v) else p)
  else hs ++ [(k, v)]

/-- Object spread `{ ...base, ...extra }` restricted to the keys of
`extra` being merged into `base`. -/
def objMerge (base extra : List (String × String)) : List (String × String) :=
  extra.foldl (fun acc p => objSet acc p.1 p.2) base

/-- Lookup of a header value (first entry with the key). -/
def getHeader : List (String × String) → String → Option String
  | [], _ => none
  | p :: rest, k => if p.1 == k then some p.2 else getHeader rest k

/-- Whether the object has the key at all. -/
def hasKey (hs : List (String × String)) (k : String) : Bool :=
  hs.any (fun p => p.1 == k)

/-- Header construction of `apiRequest` (part_001 lines 69-77): start from
`{'Content-Type': 'application/json', ...options.headers}`, then set
`Authorization: Bearer <token>` iff `StorageService.loadToken()` returned a
token. -/
def buildApiHeaders (optHeaders : List (String × String)) (st : StoreState) :
    List (String × String) :=
  let base := objMerge [("Content-Type", "application/json")] optHeaders
  match StorageService.loadToken st with
  | some t => objSet base "Authorization" ("Bearer " ++ t)
  | none => base

/-- The `jsonData.code !== undefined && jsonData.code !== 200` test. -/
def codeIsError (j : Json) : Bool :=
  match j.getField "code" with
  | some c => !(isNum200 c)
  | none => false

/-- The `jsonData.success === false` test. -/
def successIsFalse (j : Json) : Bool :=
  match j.getField "success" with
  | some v => isBoolFalse v
  | none => false

/-- The `BusinessError` thrown for `code !== 200` (part_001 lines 134-138
and 435-439): message from `message || error || msg` with the
template-literal default, `code` set to the raw `code` field, `reason` from
the `reason` field, and the whole envelope as `rawResponse`. -/
def businessFromCode (j : Json) (c : Json) : JsError :=
  { name := "BusinessError"
    message := jsToString (pickBackendMsg j (.str ("请求失败，错误码: " ++ jsToString c)))
    code := some c
    reason := j.getField "reason"
    rawResponse := some j }

/-- The `BusinessError` thrown for `success === false` (part_001 lines
141-145 and 442-446): no numeric code. -/
def businessFromSuccess (j : Json) : JsError :=
  { name := "BusinessError"
    message := jsToString (pickBackendMsg j (.str "Operation failed"))
    code := none
    reason := j.getField "reason"
    rawResponse := some j }

/-- Steps after the `code` check of the shared envelope interpretation:
`success === false` check, then `data` presence, else the whole envelope
(part_001 lines 141-156 and 442-455). -/
def afterCodeCheck (j : Json) : ApiResult :=
  if successIsFalse j then .err (businessFromSuccess j)
  else
    match j.getField "data" with
    | some d => .ok d
    | none => .ok j

/-- Envelope interpretation of a 2xx JSON body, shared verbatim by
`apiRequest` (part_001 lines 131-156) and `apiRequestFormData` (lines
433-455): guarded by `jsonData && typeof jsonData === 'object'`, then the
`code` check, the `success` check, and the `data` unwrap. -/
def interpretEnvelope (j : Json) : ApiResult :=
  if isObjectLike j then
    match j.getField "code" with
    | some c => if isNum200 c then afterCodeCheck j else .err (businessFromCode j c)
    | none => afterCodeCheck j
  else .ok j

/-- The outer `catch` of `apiRequest` / `apiRequestFormData` (part_001
lines 166-178 and 456-468): rethrow `UnauthorizedError` and
`BusinessError` (modelled by their class names, which only those
constructors produce), map an `AbortError` to the timeout `Error`, map a
`TypeError` mentioning "fetch" to the backend-unreachable `Error`, and
rethrow anything else unchanged. -/
def classifyCatch (e : JsError) : JsError :=
  if e.name = "UnauthorizedError" ∨ e.name = "BusinessError" then e
  else if e.name = "AbortError" then
    { name := "Error", message := "Request timeout. Please check your connection." }
  else if e.name = "TypeError" ∧ strContains e.message "fetch" then
    { name := "Error", message := "Cannot connect to backend service. Please check if the server is running." }
  else e

/-- Apply the outer catch to a result (resolutions pass through). -/
def classifyResult : ApiResult → ApiResult
  | .ok v => .ok v
  | .err e => .err (classifyCatch e)

/-- Error-message extraction for a non-2xx, non-401 response in
`apiRequest` (part_001 lines 105-123). Two runtime constraints of `fetch`
shape this: a parsed body of `null` makes `errorData.message` throw a
`TypeError` (caught by the same `catch (parseError)`), and the
`response.text()` fallback inside that catch always rejects because
`response.json()` already consumed the body stream — so every parse-failure
path lands in the innermost fallback
`response.statusText || 'HTTP ' + status`, and the 200-character text
truncation is unreachable. -/
def nonOkErrorMessage (status : Nat) (statusText : String) (body : Body) : String :=
  match body with
  | .jsonBody .null => if statusText = "" then "HTTP " ++ toString status else statusText
  | .invalidBody _ _ => if statusText = "" then "HTTP " ++ toString status else statusText
  | .jsonBody j =>
      let m := pickBackendMsg j (.str statusText)
      if jsTruthy m then jsToString m else "API request failed: " ++ toString status

/-- The 2xx body handling of `apiRequest` (part_001 lines 126-165). A body
that fails to parse makes `response.json()` reject with the engine's
`SyntaxError`; the `catch (parseError)` clause rethrows it because
`parseError instanceof Error` holds for `SyntaxError`, so the
`'Invalid response format from server: expected JSON'` throw on line 164 is
unreachable. -/
def handle2xx (body : Body) : ApiResult :=
  match body with
  | .invalidBody parseMsg _ => .err { name := "SyntaxError", message := parseMsg }
  | .jsonBody j => interpretEnvelope j

/-- The thrown value and side effects of the 401 branch shared by both
wrappers (part_001 lines 91-103 and 394-406): clear token and user info,
fire the registered callback once, throw `UnauthorizedError`. -/
def unauthorizedOutcome (st : StoreState) (callbackRegistered : Bool) : RequestOutcome :=
  { result := .err (classifyCatch { name := "UnauthorizedError", message := "登录已过期，请重新登录" })
    store := StorageService.clearUserInfo (StorageService.clearToken st)
    callbackCalls := if callbackRegistered then 1 else 0 }

/-- `apiRequest` (part_001 lines 58-179) after the `fetch` promise
settled: the 401 branch, the non-ok branch, the 2xx branch, all routed
through the outer catch. `st` is the credential store,
`callbackRegistered` whether `setUnauthorizedCallback` installed a
callback. -/
def apiRequestModel (st : StoreState) (callbackRegistered : Bool) (fr : FetchResult) :
    RequestOutcome :=
  match fr with
  | .response status statusText body =>
      if status = 401 then unauthorizedOutcome st callbackRegistered
      else if responseOk status then
        { result := classifyResult (handle2xx body), store := st, callbackCalls := 0 }
      else
        { result := .err (classifyCatch
            { name := "Error", message := nonOkErrorMessage status statusText body })
          store := st, callbackCalls := 0 }
  | .abortError =>
      { result := .err (classifyCatch { name := "AbortError", message := "signal is aborted without reason" })
        store := st, callbackCalls := 0 }
  | .typeError msg =>
      { result := .err (classifyCatch { name := "TypeError", message := msg })
        store := st, callbackCalls := 0 }

/-- The race between the transport and the `setTimeout(... abort, timeout)`
timer (part_001 lines 79-90): `arrival` is the instant and value at which
the transport would settle (`none` for a transport that never settles); if
the timer at `timeoutMs` fires first, `controller.abort()` makes the
pending `fetch` reject with the abort error at that instant. -/
def fetchWithTimeout (arrival : Option (Nat × FetchResult)) (timeoutMs : Nat) :
    Nat × FetchResult :=
  match arrival with
  | some (t, fr) => if t < timeoutMs then (t, fr) else (timeoutMs, .abortError)
  | none => (timeoutMs, .abortError)

/-- `apiRequest` including the timeout race: the instant at which the call
settles, and its outcome. -/
def apiRequestTimed (st : StoreState) (callbackRegistered : Bool)
    (arrival : Option (Nat × FetchResult)) (timeoutMs : Nat) : Nat × RequestOutcome :=
  let p := fetchWithTimeout arrival timeoutMs
  (p.1, apiRequestModel st callbackRegistered p.2)

/-- Error-message extraction for a non-2xx, non-401 response in
`apiRequestFormData` with a parsed JSON body (part_001 lines 426-430):
`jsonData?.message || jsonData?.error || jsonData?.msg || statusText ||
'HTTP ' + status` (optional chaining makes a `null` body safe here). -/
def formDataNonOkMessage (status : Nat) (statusText : String) (j : Json) : String :=
  let m := pickBackendMsg j (.str statusText)
  if jsTruthy m then jsToString m else "HTTP " ++ toString status

/-- `apiRequestFormData` (part_001 lines 363-469) after the `fetch`
promise settled. The body text is read once and parsed with `JSON.parse`
(lines 408-423): on parse failure (or empty body) the catch throws the
status error for non-ok responses and the invalid-format error for 2xx
responses; with a parsed body, non-ok throws the extracted message and 2xx
runs the shared envelope interpretation. -/
def apiRequestFormDataModel (st : StoreState) (callbackRegistered : Bool) (fr : FetchResult) :
    RequestOutcome :=
  match fr with
  | .response status statusText body =>
      if status = 401 then unauthorizedOutcome st callbackRegistered
      else
        match body with
        | .invalidBody _ _ =>
            if responseOk status then
              { result := .err (classifyCatch
                  { name := "Error", message := "Invalid response format from server: expected JSON" })
                store := st, callbackCalls := 0 }
            else
              { result := .err (classifyCatch
                  { name := "Error"
                    message := if statusText = "" then "HTTP " ++ toString status else statusText })
                store := st, callbackCalls := 0 }
        | .jsonBody j =>
            if responseOk status then
              { result := classifyResult (interpretEnvelope j), store := st, callbackCalls := 0 }
            else
              { result := .err (classifyCatch
                  { name := "Error", message := formDataNonOkMessage status statusText j })
                store := st, callbackCalls := 0 }
  | .abortError =>
      { result := .err (classifyCatch { name := "AbortError", message := "signal is aborted without reason" })
        store := st, callbackCalls := 0 }
  | .typeError msg =>
      { result := .err (classifyCatch { name := "TypeError", message := msg })
        store := st, callbackCalls := 0 }

/-- The `result.code !== undefined && result.code !== 200 &&
result.code !== 0` test of `authRequest` (authService.ts line 80). -/
def authCodeIsError (j : Json) : Bool :=
  match j.getField "code" with
  | some c => !(isNum200 c) && !(isNum0 c)
  | none => false

/-- Steps of `authRequest` after its code check (authService.ts lines
85-95): `data` present and non-null resolves with `data`; `data` present
and `null` throws; no `data` field resolves with the whole envelope. -/
def authDataStep (j : Json) : ApiResult :=
  match j.getField "data" with
  | some .null =>
      .err { name := "Error"
             message := jsToString (fieldOr (j.getField "message") (.str "请求失败，返回数据为空")) }
  | some d => .ok d
  | none => .ok j

/-- Envelope interpretation of a 2xx JSON body in `authRequest`
(authService.ts lines 77-95). Unlike `apiRequest` there is no object-type
guard, so a parsed body of `null` makes `result.code` throw a `TypeError`;
primitive bodies box safely and fall through to being returned whole. -/
def authInterpret : Json → ApiResult
  | .null => .err { name := "TypeError", message := "Cannot read properties of null (reading 'code')" }
  | j =>
      match j.getField "code" with
      | some c =>
          if !(isNum200 c) && !(isNum0 c) then
            .err { name := "Error"
                   message := jsToString (fieldOr (j.getField "message")
                     (.str ("请求失败: " ++ jsToString c))) }
          else authDataStep j
      | none => authDataStep j

/-- The non-ok branch of `authRequest` (authService.ts lines 67-75):
`response.json().catch(() => ({message: statusText}))`, then a dedicated
message for 401 and the generic one otherwise; a parsed body of `null`
makes `error.message` throw a `TypeError`. -/
def authNonOk (status : Nat) (statusText : String) (body : Body) : JsError :=
  match body with
  | .jsonBody .null =>
      { name := "TypeError", message := "Cannot read properties of null (reading 'message')" }
  | .jsonBody j =>
      { name := "Error"
        message := jsToString (fieldOr (j.getField "message")
          (.str (if status = 401 then
                   "该操作不需要登录，但后端返回401错误。请检查后端配置，确保 /api/app/auth/send-code 接口不需要认证"
                 else "API request failed: " ++ toString status))) }
  | .invalidBody _ _ =>
      { name := "Error"
        message := jsToString (fieldOr ((Json.obj [("message", .str statusText)]).getField "message")
          (.str (if status = 401 then
                   "该操作不需要登录，但后端返回401错误。请检查后端配置，确保 /api/app/auth/send-code 接口不需要认证"
                 else "API request failed: " ++ toString status))) }

/-- The outer `catch` of `authRequest` (authService.ts lines 96-105):
map `AbortError` to the Chinese timeout message, a `TypeError` mentioning
"fetch" to the Chinese unreachable message, rethrow everything else. -/
def authClassify (e : JsError) : JsError :=
  if e.name = "AbortError" then
    { name := "Error", message := "请求超时，请检查网络连接" }
  else if e.name = "TypeError" ∧ strContains e.message "fetch" then
    { name := "Error", message := "无法连接到后端服务，请检查服务器是否运行" }
  else e

/-- `authRequest` (authService.ts lines 30-106) after the `fetch` promise
settled. It attaches no `Authorization` header and touches no stored
state; the result is the resolved value or the thrown error. -/
def authRequestModel (fr : FetchResult) : ApiResult :=
  match fr with
  | .response status statusText body =>
      if responseOk status then
        match body with
        | .invalidBody parseMsg _ => .err (authClassify { name := "SyntaxError", message := parseMsg })
        | .jsonBody j =>
            match authInterpret j with
            | .ok v => .ok v
            | .err e => .err (authClassify e)
      else .err (authClassify (authNonOk status statusText body))
  | .abortError => .err (authClassify { name := "AbortError", message := "signal is aborted without reason" })
  | .typeError msg => .err (authClassify { name := "TypeError", message := msg })

/-- `Math.round` on exact rational semantics: round half toward positive
infinity. -/
def jsRound (q : ℚ) : ℤ := ⌊q + 1/2⌋

/-- The upscale step of `calculateTargetSize` (imageCompression.ts lines
122-129): if either dimension is below its minimum, scale both by
`max(minWidth/width, minHeight/height)` and round. -/
def upscaleToMin (width height minWidth minHeight : ℤ) : ℤ × ℤ :=
  if width < minWidth ∨ height < minHeight then
    let scale : ℚ := max ((minWidth : ℚ) / (width : ℚ)) ((minHeight : ℚ) / (height : ℚ))
    (jsRound ((width : ℚ) * scale), jsRound ((height : ℚ) * scale))
  else (width, height)

/-- The downscale step of `calculateTargetSize` (imageCompression.ts lines
131-138): if either dimension exceeds its maximum, scale both by
`min(maxWidth/width, maxHeight/height)` and round. -/
def downscaleToMax (width height maxWidth maxHeight : ℤ) : ℤ × ℤ :=
  if width > maxWidth ∨ height > maxHeight then
    let scale : ℚ := min ((maxWidth : ℚ) / (width : ℚ)) ((maxHeight : ℚ) / (height : ℚ))
    (jsRound ((width : ℚ) * scale), jsRound ((height : ℚ) * scale))
  else (width, height)

/-- `calculateTargetSize` (imageCompression.ts lines 111-144): the upscale
step followed by the downscale step on its output. -/
def calculateTargetSize (width height maxWidth maxHeight minWidth minHeight : ℤ) : ℤ × ℤ :=
  let p := upscaleToMin width height minWidth minHeight
  downscaleToMax p.1 p.2 maxWidth maxHeight

/-- The byte budget of `compressImage` (imageCompression.ts line 24). -/
def maxSizeBytesOf (maxSizeMB : ℚ) : ℚ := maxSizeMB * 1024 * 1024

/-- `estimateInitialQuality` (imageCompression.ts lines 149-168). -/
def estimateInitialQuality (originalSize targetSize : ℚ) : ℚ :=
  let ratio := originalSize / targetSize
  if ratio > 5 then 6/10
  else if ratio > 2 then 7/10
  else if ratio > 3/2 then 8/10
  else 9/10

/-- The retry loop body `tryCompress` of `compressToSize`
(imageCompression.ts lines 184-206). `encode` abstracts
`canvas.toBlob(..., 'image/jpeg', quality)`, returning the encoded size at
a given quality. The returned value is the resolved `(quality, size)`
pair together with the number of encodings performed from this entry
(`attempts` counts completed retries, as in the source). -/
def tryCompress (encode : ℚ → ℕ) (maxSizeBytes : ℚ) (quality : ℚ) (attempts : ℕ) :
    (ℚ × ℕ) × ℕ :=
  let size := encode quality
  if (size : ℚ) ≤ maxSizeBytes ∨ 3 ≤ attempts then ((quality, size), 1)
  else
    let r := tryCompress encode maxSizeBytes (max (1/10) (quality - 1/10)) (attempts + 1)
    (r.1, r.2 + 1)
termination_by 4 - attempts
decreasing_by omega

/-- `compressToSize` (imageCompression.ts lines 174-210): run the loop
from `initialQuality` with zero completed retries. -/
def compressToSize (encode : ℚ → ℕ) (maxSizeBytes : ℚ) (initialQuality : ℚ) :
    (ℚ × ℕ) × ℕ :=
  tryCompress encode maxSizeBytes initialQuality 0

/-- The sequence of qualities the loop encodes at: the initial quality,
then each retry lowers by 0.1 with a floor of 0.1
(`quality = Math.max(0.1, quality - 0.1)`, imageCompression.ts line 200). -/
def qualitySeq (q : ℚ) : ℕ → ℚ
  | 0 => q
  | n + 1 => max (1/10) (qualitySeq q n - 1/10)

/-- Whether a field is skipped by a `||` chain: absent or falsy. -/
def fieldFalsy (j : Json) (k : String) : Bool :=
  match j.getField k with
  | some v => !jsTruthy v
  | none => true

/-! Helper lemmas. -/

theorem classifyCatch_business {e : JsError} (h : e.name = "BusinessError") :
    classifyCatch e = e := by
  unfold classifyCatch
  rw [if_pos (Or.inr h)]

theorem classifyCatch_unauthorized {e : JsError} (h : e.name = "UnauthorizedError") :
    classifyCatch e = e := by
  unfold classifyCatch
  rw [if_pos (Or.inl h)]

theorem status_ne_401_of_ok {status : ℕ} (hok : responseOk status = true) :
    ¬ (status = 401) := by
  intro h
  subst h
  simp [responseOk] at hok

theorem fieldOr_truthy {v : Json} (f : Option Json) (fallback : Json)
    (hf : f = some v) (hv : jsTruthy v = true) : fieldOr f fallback = v := by
  rw [hf]
  simp [fieldOr, hv]

theorem fieldOr_falsy {f : Option Json} (fallback : Json)
    (hf : ∀ v, f = some v → jsTruthy v = false) : fieldOr f fallback = fallback := by
  cases f with
  | none => rfl
  | some v => simp [fieldOr, hf v rfl]

theorem fieldFalsy_skip {j : Json} {k : String} (h : fieldFalsy j k = true) :
    ∀ v, j.getField k = some v → jsTruthy v = false := by
  intro v hv
  unfold fieldFalsy at h
  rw [hv] at h
  simpa using h

/-! Claim theorems. -/

/-- Claim C1: for every 2xx HTTP response whose body parses as a JSON
object, `apiRequest` interprets the envelope with a fixed precedence:
a present `code` not equal to `200` rejects with `BusinessError`;
otherwise `success === false` rejects with `BusinessError` carrying no
numeric code; otherwise a present `data` field (including explicit
`null`) resolves with exactly `data`; otherwise the call resolves with
the whole envelope object. -/
theorem apiRequest_envelope_precedence
    (st : StoreState) (cb : Bool) (status : ℕ) (stx : String)
    (fs : List (String × Json))
    (hok : responseOk status = true) :
    (∀ c, (Json.obj fs).getField "code" = some c → isNum200 c = false →
      ∃ e, (apiRequestModel st cb (.response status stx (.jsonBody (.obj fs)))).result = .err e ∧
        e.name = "BusinessError" ∧ e.code = some c) ∧
    (codeIsError (Json.obj fs) = false → successIsFalse (Json.obj fs) = true →
      ∃ e, (apiRequestModel st cb (.response status stx (.jsonBody (.obj fs)))).result = .err e ∧
        e.name = "BusinessError" ∧ e.code = none) ∧
    (∀ d, codeIsError (Json.obj fs) = false → successIsFalse (Json.obj fs) = false →
      (Json.obj fs).getField "data" = some d →
      (apiRequestModel st cb (.response status stx (.jsonBody (.obj fs)))).result = .ok d) ∧
    (codeIsError (Json.obj fs) = false → successIsFalse (Json.obj fs) = false →
      (Json.obj fs).getField "data" = none →
      (apiRequestModel st cb (.response status stx (.jsonBody (.obj fs)))).result = .ok (Json.obj fs)) := by
  have h401 := status_ne_401_of_ok hok
  have hmodel : apiRequestModel st cb (.response status stx (.jsonBody (.obj fs))) =
      { result := classifyResult (interpretEnvelope (Json.obj fs)), store := st, callbackCalls := 0 } := by
    simp [apiRequestModel, h401, hok, handle2xx]
  refine ⟨?_, ?_, ?_, ?_⟩
  · intro c hc hnum
    refine ⟨businessFromCode (Json.obj fs) c, ?_, rfl, rfl⟩
    rw [hmodel]
    simp [interpretEnvelope, isObjectLike, hc, hnum, classifyResult,
      @classifyCatch_business (businessFromCode (Json.obj fs) c) rfl]
  · intro hcode hsucc
    refine ⟨businessFromSuccess (Json.obj fs), ?_, rfl, rfl⟩
    rw [hmodel]
    unfold codeIsError at hcode
    cases hget : (Json.obj fs).getField "code" with
    | none =>
        simp [interpretEnvelope, isObjectLike, hget, afterCodeCheck, hsucc, classifyResult,
          @classifyCatch_business (businessFromSuccess (Json.obj fs)) rfl]
    | some c =>
        rw [hget] at hcode
        have hc200 : isNum200 c = true := by simpa using hcode
        simp [interpretEnvelope, isObjectLike, hget, hc200, afterCodeCheck, hsucc, classifyResult,
          @classifyCatch_business (businessFromSuccess (Json.obj fs)) rfl]
  · intro d hcode hsucc hdata
    rw [hmodel]
    unfold codeIsError at hcode
    cases hget : (Json.obj fs).getField "code" with
    | none =>
        simp [interpretEnvelope, isObjectLike, hget, afterCodeCheck, hsucc, hdata, classifyResult]
    | some c =>
        rw [hget] at hcode
        have hc200 : isNum200 c = true := by simpa using hcode
        simp [interpretEnvelope, isObjectLike, hget, hc200, afterCodeCheck, hsucc, hdata, classifyResult]
  · intro hcode hsucc hdata
    rw [hmodel]
    unfold codeIsError at hcode
    cases hget : (Json.obj fs).getField "code" with
    | none =>
        simp [interpretEnvelope, isObjectLike, hget, afterCodeCheck, hsucc, hdata, classifyResult]
    | some c =>
        rw [hget] at hcode
        have hc200 : isNum200 c = true := by simpa using hcode
        simp [interpretEnvelope, isObjectLike, hget, hc200, afterCodeCheck, hsucc, hdata, classifyResult]

/-- Witness for C1: at HTTP 200 with envelope `{code: 200, data: null}`
the call resolves with exactly `null`. -/
theorem apiRequest_envelope_precedence_witness :
    responseOk 200 = true ∧
    (apiRequestModel ⟨none, none⟩ false
      (.response 200 "OK" (.jsonBody (.obj [("code", .num 200), ("data", .null)])))).result =
      .ok Json.null := by
  refine ⟨by decide, ?_⟩
  exact (apiRequest_envelope_precedence ⟨none, none⟩ false 200 "OK"
    [("code", .num 200), ("data", .null)] (by decide)).2.2.1 Json.null
    (by rfl) (by rfl) (by rfl)

/-- Claim C2: for every envelope with a present `code` not equal to `200`,
`apiRequest` rejects with a `BusinessError` carrying that code and the
backend-supplied message picked from `message`/`error`/`msg` in that order
(a field is skipped when absent or falsy, as `||` does), regardless of the
HTTP status being 200; in particular HTTP 200 with body
`{"code":500,"message":"model unavailable"}` rejects with
`BusinessError(message="model unavailable", code=500)`. -/
theorem apiRequest_business_code_rejection :
    (∀ (st : StoreState) (cb : Bool) (status : ℕ) (stx : String)
       (fs : List (String × Json)) (c : Json),
      responseOk status = true →
      (Json.obj fs).getField "code" = some c → isNum200 c = false →
      ∃ e, (apiRequestModel st cb (.response status stx (.jsonBody (.obj fs)))).result = .err e ∧
        e.name = "BusinessError" ∧ e.code = some c ∧
        e.message = jsToString (pickBackendMsg (Json.obj fs)
          (.str ("请求失败，错误码: " ++ jsToString c)))) ∧
    (∀ (j : Json) (fallback m : Json),
      j.getField "message" = some m → jsTruthy m = true →
      pickBackendMsg j fallback = m) ∧
    (∀ (j : Json) (fallback m : Json),
      fieldFalsy j "message" = true →
      j.getField "error" = some m → jsTruthy m = true →
      pickBackendMsg j fallback = m) ∧
    (∀ (j : Json) (fallback m : Json),
      fieldFalsy j "message" = true → fieldFalsy j "error" = true →
      j.getField "msg" = some m → jsTruthy m = true →
      pickBackendMsg j fallback = m) ∧
    ((apiRequestModel ⟨none, none⟩ false (.response 200 "OK"
        (.jsonBody (.obj [("code", .num 500), ("message", .str "model unavailable")])))).result.errMessage
      = some "model unavailable" ∧
     (apiRequestModel ⟨none, none⟩ false (.response 200 "OK"
        (.jsonBody (.obj [("code", .num 500), ("message", .str "model unavailable")])))).result.errCode
      = some (.num 500) ∧
     (apiRequestModel ⟨none, none⟩ false (.response 200 "OK"
        (.jsonBody (.obj [("code", .num 500), ("message", .str "model unavailable")])))).result.errName
      = some "BusinessError") := by
  refine ⟨?_, ?_, ?_, ?_, by refine ⟨rfl, rfl, rfl⟩⟩
  · intro st cb status stx fs c hok hc hnum
    have h401 := status_ne_401_of_ok hok
    refine ⟨businessFromCode (Json.obj fs) c, ?_, rfl, rfl, rfl⟩
    simp [apiRequestModel, h401, hok, handle2xx, interpretEnvelope, isObjectLike, hc, hnum,
      classifyResult, @classifyCatch_business (businessFromCode (Json.obj fs) c) rfl]
  · intro j fallback m hm htr
    unfold pickBackendMsg
    exact fieldOr_truthy _ _ hm htr
  · intro j fallback m hmsg hm htr
    unfold pickBackendMsg
    rw [fieldOr_falsy _ (fieldFalsy_skip hmsg)]
    exact fieldOr_truthy _ _ hm htr
  · intro j fallback m hmsg herr hm htr
    unfold pickBackendMsg
    rw [fieldOr_falsy _ (fieldFalsy_skip hmsg), fieldOr_falsy _ (fieldFalsy_skip herr)]
    exact fieldOr_truthy _ _ hm htr

/-- Witness for C2: the concrete scenario HTTP 200 with
`{"code":500,"message":"model unavailable"}`. -/
theorem apiRequest_business_code_rejection_witness :
    responseOk 200 = true ∧
    ∃ e, (apiRequestModel ⟨none, none⟩ false (.response 200 "OK"
        (.jsonBody (.obj [("code", .num 500), ("message", .str "model unavailable")])))).result = .err e ∧
      e.name = "BusinessError" ∧ e.code = some (.num 500) ∧
      e.message = jsToString (pickBackendMsg
        (Json.obj [("code", .num 500), ("message", .str "model unavailable")])
        (.str ("请求失败，错误码: " ++ jsToString (.num 500)))) := by
  refine ⟨by decide, ?_⟩
  exact apiRequest_business_code_rejection.1 ⟨none, none⟩ false 200 "OK"
    [("code", .num 500), ("message", .str "model unavailable")] (.num 500)
    (by decide) (by rfl) (by rfl)

/-- Claim C3: every HTTP 401 response makes `apiRequest` and
`apiRequestFormData` clear the stored bearer token, clear the stored
user-info record, invoke the registered unauthorized callback exactly once
when one is registered (and not at all otherwise), and reject with
`UnauthorizedError` — for every response body, including bodies that are
not valid JSON. -/
theorem request_401_clears_session :
    ∀ (st : StoreState) (cb : Bool) (stx : String) (body : Body),
      (apiRequestModel st cb (.response 401 stx body)).store.token = none ∧
      (apiRequestModel st cb (.response 401 stx body)).store.userInfo = none ∧
      (apiRequestModel st cb (.response 401 stx body)).callbackCalls
        = (if cb then 1 else 0) ∧
      (apiRequestModel st cb (.response 401 stx body)).result.errName
        = some "UnauthorizedError" ∧
      (apiRequestFormDataModel st cb (.response 401 stx body)).store.token = none ∧
      (apiRequestFormDataModel st cb (.response 401 stx body)).store.userInfo = none ∧
      (apiRequestFormDataModel st cb (.response 401 stx body)).callbackCalls
        = (if cb then 1 else 0) ∧
      (apiRequestFormDataModel st cb (.response 401 stx body)).result.errName
        = some "UnauthorizedError" := by
  intro st cb stx body
  have hcl : classifyCatch { name := "UnauthorizedError", message := "登录已过期，请重新登录" } =
      { name := "UnauthorizedError", message := "登录已过期，请重新登录" } :=
    classifyCatch_unauthorized rfl
  refine ⟨?_, ?_, ?_, ?_, ?_, ?_, ?_, ?_⟩ <;>
    simp [apiRequestModel, apiRequestFormDataModel, unauthorizedOutcome, hcl,
      StorageService.clearToken, StorageService.clearUserInfo, ApiResult.errName]

/-- Counterexample to C4: two failures of different kinds — a timeout and
a backend-unreachable network failure — are thrown as values carrying the
same kind discriminator (both are plain `Error`s, `name = "Error"`); they
differ only in their message strings, so a caller cannot branch on a kind
discriminator to tell them apart. -/
theorem error_kinds_share_discriminator_counterexample :
    (apiRequestModel ⟨none, none⟩ false .abortError).result.errName = some "Error" ∧
    (apiRequestModel ⟨none, none⟩ false (.typeError "Failed to fetch")).result.errName
      = some "Error" ∧
    (apiRequestModel ⟨none, none⟩ false .abortError).result.errMessage
      = some "Request timeout. Please check your connection." ∧
    (apiRequestModel ⟨none, none⟩ false (.typeError "Failed to fetch")).result.errMessage
      = some "Cannot connect to backend service. Please check if the server is running." := by
  refine ⟨rfl, rfl, rfl, rfl⟩

/-- Claim C4 as amended: only `Unauthorized` and `BusinessError` failures
carry distinct kind discriminators (`name = "UnauthorizedError"` and
`name = "BusinessError"`); timeout, backend-unreachable and generic
request failures are all plain `Error` values (`name = "Error"`)
distinguishable only by message, and a 2xx JSON-parse failure surfaces as
the parser's `SyntaxError`. Shown on one concrete failure of each kind. -/
theorem error_kind_discriminators_amended :
    (apiRequestModel ⟨some "t", some "u"⟩ true (.response 401 "Unauthorized"
      (.jsonBody (.obj [])))).result.errName = some "UnauthorizedError" ∧
    (apiRequestModel ⟨none, none⟩ false (.response 200 "OK"
      (.jsonBody (.obj [("code", .num 500)])))).result.errName = some "BusinessError" ∧
    (apiRequestModel ⟨none, none⟩ false .abortError).result.errName = some "Error" ∧
    (apiRequestModel ⟨none, none⟩ false (.typeError "Failed to fetch")).result.errName
      = some "Error" ∧
    (apiRequestModel ⟨none, none⟩ false (.response 500 "Internal Server Error"
      (.jsonBody (.obj [("message", .str "boom")])))).result.errName = some "Error" ∧
    (apiRequestModel ⟨none, none⟩ false (.response 200 "OK"
      (.invalidBody "Unexpected token '<'" "<html></html>"))).result.errName
      = some "SyntaxError" := by
  refine ⟨rfl, rfl, rfl, rfl, rfl, rfl⟩

/-- Claim C5 (code evaluated at the failing input): a 2xx response whose
body is not valid JSON makes `apiRequest` reject — it never resolves with
the raw text — but the rejection is the `JSON.parse` `SyntaxError`
rethrown by the `parseError instanceof Error` guard, not the
`InvalidResponseFormat` error: its message is the engine's parse message,
not `"Invalid response format from server: expected JSON"` (that throw is
unreachable). The sibling `apiRequestFormData` does produce the intended
message on the same input. -/
theorem apiRequest_parse_failure_behavior :
    (apiRequestModel ⟨none, none⟩ false (.response 200 "OK"
      (.invalidBody "Unexpected token 'n', \"not json\" is not valid JSON" "not json"))).result
      = .err { name := "SyntaxError"
               message := "Unexpected token 'n', \"not json\" is not valid JSON" } ∧
    (apiRequestModel ⟨none, none⟩ false (.response 200 "OK"
      (.invalidBody "Unexpected token 'n', \"not json\" is not valid JSON" "not json"))).result.errName
      = some "SyntaxError" ∧
    (("Unexpected token 'n', \"not json\" is not valid JSON"
        == "Invalid response format from server: expected JSON") = false) ∧
    (apiRequestFormDataModel ⟨none, none⟩ false (.response 200 "OK"
      (.invalidBody "Unexpected token 'n', \"not json\" is not valid JSON" "not json"))).result.errMessage
      = some "Invalid response format from server: expected JSON" := by
  refine ⟨rfl, rfl, by decide, rfl⟩

/-- Claim C6: with a transport that never resolves and a configured
timeout of `T` ms, the abort timer fires at `T`, the pending `fetch`
rejects with the abort error, and the call settles at an instant `≤ T`
with the timeout `Error` whose message is
`"Request timeout. Please check your connection."` — it does not pend
indefinitely, and the credential store is untouched. -/
theorem apiRequest_timeout_within_deadline :
    ∀ (st : StoreState) (cb : Bool) (timeoutMs : ℕ),
      fetchWithTimeout none timeoutMs = (timeoutMs, .abortError) ∧
      (apiRequestTimed st cb none timeoutMs).1 ≤ timeoutMs ∧
      (apiRequestTimed st cb none timeoutMs).2.result.errName = some "Error" ∧
      (apiRequestTimed st cb none timeoutMs).2.result.errMessage
        = some "Request timeout. Please check your connection." ∧
      (apiRequestTimed st cb none timeoutMs).2.store = st ∧
      (apiRequestTimed st cb none timeoutMs).2.callbackCalls = 0 := by
  intro st cb timeoutMs
  refine ⟨rfl, le_refl _, rfl, rfl, rfl, rfl⟩


theorem getHeader_none_of_not_hasKey {hs : List (String × String)} {k : String}
    (h : hasKey hs k = false) : getHeader hs k = none := by
  induction hs with
  | nil => rfl
  | cons p rest ih =>
    unfold hasKey at h ih
    simp only [List.any_cons, Bool.or_eq_false_iff] at h
    unfold getHeader
    rw [if_neg (by rw [h.1]; exact Bool.false_ne_true)]
    exact ih h.2

theorem getHeader_append_self {hs : List (String × String)} {k : String} (v : String)
    (h : hasKey hs k = false) : getHeader (hs ++ [(k, v)]) k = some v := by
  induction hs with
  | nil => simp [getHeader]
  | cons p rest ih =>
    unfold hasKey at h ih
    simp only [List.any_cons, Bool.or_eq_false_iff] at h
    rw [List.cons_append]
    unfold getHeader
    rw [if_neg (by rw [h.1]; exact Bool.false_ne_true)]
    exact ih h.2

theorem getHeader_map_self {hs : List (String × String)} {k : String} (v : String)
    (h : hasKey hs k = true) :
    getHeader (hs.map (fun p => if p.1 == k then (k, v) else p)) k = some v := by
  induction hs with
  | nil => simp [hasKey] at h
  | cons p rest ih =>
    rw [List.map_cons]
    by_cases hp : (p.1 == k) = true
    · rw [if_pos hp]
      unfold getHeader
      rw [if_pos (by exact beq_self_eq_true k)]
    · rw [if_neg hp]
      unfold getHeader
      rw [if_neg hp]
      refine ih ?_
      unfold hasKey at h
      rw [List.any_cons, Bool.or_eq_true] at h
      rcases h with h' | h'
      · exact absurd h' hp
      · exact h'

theorem getHeader_objSet_self (hs : List (String × String)) (k v : String) :
    getHeader (objSet hs k v) k = some v := by
  unfold objSet
  by_cases h : hs.any (fun p => p.1 == k) = true
  · rw [if_pos h]
    exact getHeader_map_self v h
  · rw [if_neg h]
    exact getHeader_append_self v (Bool.eq_false_iff.mpr h)

theorem hasKey_map_keySet {hs : List (String × String)} {a : String} (v k : String) :
    hasKey (hs.map (fun p => if p.1 == a then (a, v) else p)) k = hasKey hs k := by
  induction hs with
  | nil => rfl
  | cons p rest ih =>
    rw [List.map_cons]
    unfold hasKey at ih ⊢
    rw [List.any_cons, List.any_cons, ih]
    by_cases hpa : (p.1 == a) = true
    · rw [if_pos hpa, eq_of_beq hpa]
    · rw [if_neg hpa]

theorem hasKey_objSet_eq (hs : List (String × String)) (a v k : String) :
    hasKey (objSet hs a v) k = (hasKey hs k || a == k) := by
  unfold objSet
  by_cases h : hs.any (fun p => p.1 == a) = true
  · rw [if_pos h, hasKey_map_keySet]
    by_cases hak : (a == k) = true
    · rw [hak, ← eq_of_beq hak]
      show hasKey hs a = (hasKey hs a || true)
      rw [Bool.or_true]
      exact h
    · rw [Bool.eq_false_iff.mpr hak, Bool.or_false]
  · rw [if_neg h]
    unfold hasKey
    rw [List.any_append]
    simp [List.any_cons]

theorem hasKey_objMerge {k : String} :
    ∀ (extra base : List (String × String)), hasKey base k = false → hasKey extra k = false →
      hasKey (objMerge base extra) k = false := by
  intro extra
  induction extra with
  | nil => intro base hb _; exact hb
  | cons p rest ih =>
    intro base hb he
    unfold hasKey at he
    rw [List.any_cons, Bool.or_eq_false_iff] at he
    refine ih (objSet base p.1 p.2) ?_ he.2
    rw [hasKey_objSet_eq, hb, he.1]
    rfl

/-- Counterexample to C7: a call whose `options.headers` already contains
an `Authorization` entry still sends it after `clearToken()` — with no
stored token the spread-in header survives, so "attaches no Authorization
header at all after clearToken()" fails for such a call. -/
theorem auth_header_after_clear_counterexample :
    getHeader (buildApiHeaders [("Authorization", "Bearer stale")]
      (StorageService.clearToken ⟨some "old", some "u"⟩)) "Authorization"
      = some "Bearer stale" ∧
    (getHeader (buildApiHeaders [("Authorization", "Bearer stale")]
      (StorageService.clearToken ⟨some "old", some "u"⟩)) "Authorization").isSome = true := by
  refine ⟨rfl, rfl⟩

/-- Claim C7 as amended: header construction is deterministic in the
stored credential for every call whose own `options.headers` carries no
`Authorization` key (true of every endpoint in this repository). With a
stored token the attached header is exactly `Bearer <token>` — for any
caller headers, even ones with their own `Authorization`, which the stored
token overwrites; with no stored token (in particular after
`clearToken()`) no `Authorization` header is attached provided the caller
did not supply one. -/
theorem auth_header_determinism_amended :
    (∀ (opt : List (String × String)) (st : StoreState) (t : String),
      StorageService.loadToken st = some t →
      getHeader (buildApiHeaders opt st) "Authorization" = some ("Bearer " ++ t)) ∧
    (∀ (opt : List (String × String)) (st : StoreState),
      hasKey opt "Authorization" = false →
      StorageService.loadToken st = none →
      getHeader (buildApiHeaders opt st) "Authorization" = none) ∧
    (∀ (opt : List (String × String)) (st : StoreState),
      hasKey opt "Authorization" = false →
      getHeader (buildApiHeaders opt (StorageService.clearToken st)) "Authorization" = none) := by
  have hbase : hasKey [("Content-Type", "application/json")] "Authorization" = false := by decide
  have hnone : ∀ (opt : List (String × String)) (st : StoreState),
      hasKey opt "Authorization" = false →
      StorageService.loadToken st = none →
      getHeader (buildApiHeaders opt st) "Authorization" = none := by
    intro opt st hk ht0
    unfold buildApiHeaders
    rw [ht0]
    exact getHeader_none_of_not_hasKey (hasKey_objMerge opt _ hbase hk)
  refine ⟨?_, hnone, ?_⟩
  · intro opt st t ht
    unfold buildApiHeaders
    rw [ht]
    exact getHeader_objSet_self _ _ _
  · intro opt st hk
    exact hnone opt (StorageService.clearToken st) hk rfl

/-- Witness for C7 (amended): a stored token `"tok"` yields exactly the
`Bearer tok` header, and after `clearToken()` (with no caller-supplied
`Authorization` entry) the header is absent. -/
theorem auth_header_determinism_amended_witness :
    StorageService.loadToken ⟨some "tok", none⟩ = some "tok" ∧
    getHeader (buildApiHeaders [] ⟨some "tok", none⟩) "Authorization"
      = some ("Bearer " ++ "tok") ∧
    hasKey [] "Authorization" = false ∧
    getHeader (buildApiHeaders [] (StorageService.clearToken ⟨some "tok", none⟩)) "Authorization"
      = none :=
  ⟨rfl, auth_header_determinism_amended.1 [] ⟨some "tok", none⟩ "tok" rfl, by decide,
    auth_header_determinism_amended.2.2 [] ⟨some "tok", none⟩ (by decide)⟩

theorem jsRound_mono {a b : ℚ} (hab : a ≤ b) : jsRound a ≤ jsRound b :=
  Int.floor_le_floor (add_le_add_right hab _)

theorem jsRound_intCast (n : ℤ) : jsRound (n : ℚ) = n := by
  unfold jsRound
  rw [add_comm, Int.floor_add_int]
  norm_num

theorem le_jsRound_of_intCast_le {n : ℤ} {q : ℚ} (h : (n : ℚ) ≤ q) : n ≤ jsRound q := by
  have h2 := jsRound_mono h
  rwa [jsRound_intCast] at h2

theorem jsRound_le_of_le_intCast {n : ℤ} {q : ℚ} (h : q ≤ (n : ℚ)) : jsRound q ≤ n := by
  have h2 := jsRound_mono h
  rwa [jsRound_intCast] at h2

theorem upscaleToMin_meets_min {w h minW minH : ℤ}
    (hw : 1 ≤ w) (hh : 1 ≤ h) :
    minW ≤ (upscaleToMin w h minW minH).1 ∧ minH ≤ (upscaleToMin w h minW minH).2 := by
  unfold upscaleToMin
  by_cases hcond : w < minW ∨ h < minH
  · rw [if_pos hcond]
    have hw0 : (0 : ℚ) < (w : ℚ) := by
      have : (0 : ℤ) < w := by omega
      exact_mod_cast this
    have hh0 : (0 : ℚ) < (h : ℚ) := by
      have : (0 : ℤ) < h := by omega
      exact_mod_cast this
    constructor
    · show minW ≤ jsRound ((w : ℚ) * max ((minW : ℚ) / (w : ℚ)) ((minH : ℚ) / (h : ℚ)))
      apply le_jsRound_of_intCast_le
      calc (minW : ℚ) = (minW : ℚ) / (w : ℚ) * (w : ℚ) := (div_mul_cancel₀ _ (ne_of_gt hw0)).symm
        _ ≤ max ((minW : ℚ) / (w : ℚ)) ((minH : ℚ) / (h : ℚ)) * (w : ℚ) :=
            mul_le_mul_of_nonneg_right (le_max_left _ _) (le_of_lt hw0)
        _ = (w : ℚ) * max ((minW : ℚ) / (w : ℚ)) ((minH : ℚ) / (h : ℚ)) := mul_comm _ _
    · show minH ≤ jsRound ((h : ℚ) * max ((minW : ℚ) / (w : ℚ)) ((minH : ℚ) / (h : ℚ)))
      apply le_jsRound_of_intCast_le
      calc (minH : ℚ) = (minH : ℚ) / (h : ℚ) * (h : ℚ) := (div_mul_cancel₀ _ (ne_of_gt hh0)).symm
        _ ≤ max ((minW : ℚ) / (w : ℚ)) ((minH : ℚ) / (h : ℚ)) * (h : ℚ) :=
            mul_le_mul_of_nonneg_right (le_max_right _ _) (le_of_lt hh0)
        _ = (h : ℚ) * max ((minW : ℚ) / (w : ℚ)) ((minH : ℚ) / (h : ℚ)) := mul_comm _ _
  · rw [if_neg hcond]
    push_neg at hcond
    exact ⟨hcond.1, hcond.2⟩

theorem downscaleToMax_meets_max {w h maxW maxH : ℤ} (hw : 1 ≤ w) (hh : 1 ≤ h) :
    (downscaleToMax w h maxW maxH).1 ≤ maxW ∧ (downscaleToMax w h maxW maxH).2 ≤ maxH := by
  unfold downscaleToMax
  by_cases hcond : w > maxW ∨ h > maxH
  · rw [if_pos hcond]
    have hw0 : (0 : ℚ) < (w : ℚ) := by
      have : (0 : ℤ) < w := by omega
      exact_mod_cast this
    have hh0 : (0 : ℚ) < (h : ℚ) := by
      have : (0 : ℤ) < h := by omega
      exact_mod_cast this
    constructor
    · show jsRound ((w : ℚ) * min ((maxW : ℚ) / (w : ℚ)) ((maxH : ℚ) / (h : ℚ))) ≤ maxW
      apply jsRound_le_of_le_intCast
      calc (w : ℚ) * min ((maxW : ℚ) / (w : ℚ)) ((maxH : ℚ) / (h : ℚ))
          ≤ (w : ℚ) * ((maxW : ℚ) / (w : ℚ)) :=
            mul_le_mul_of_nonneg_left (min_le_left _ _) (le_of_lt hw0)
        _ = (maxW : ℚ) := by rw [mul_comm, div_mul_cancel₀ _ (ne_of_gt hw0)]
    · show jsRound ((h : ℚ) * min ((maxW : ℚ) / (w : ℚ)) ((maxH : ℚ) / (h : ℚ))) ≤ maxH
      apply jsRound_le_of_le_intCast
      calc (h : ℚ) * min ((maxW : ℚ) / (w : ℚ)) ((maxH : ℚ) / (h : ℚ))
          ≤ (h : ℚ) * ((maxH : ℚ) / (h : ℚ)) :=
            mul_le_mul_of_nonneg_left (min_le_right _ _) (le_of_lt hh0)
        _ = (maxH : ℚ) := by rw [mul_comm, div_mul_cancel₀ _ (ne_of_gt hh0)]
  · rw [if_neg hcond]
    push_neg at hcond
    exact ⟨hcond.1, hcond.2⟩

/-- Counterexample to C8: a 1×1000 source with bounds
`(minW, minH, maxW, maxH) = (50, 50, 3000, 3000)` — all satisfying the
claim's side conditions — produces output `(3, 3000)`: the width 3
violates `minW ≤ w`. Upscaling to meet the minimums (50×50000) forces a
downscale whose uniform factor drops the width far below the minimum. -/
theorem targetSize_min_bound_counterexample :
    calculateTargetSize 1 1000 3000 3000 50 50 = (3, 3000) ∧
    (calculateTargetSize 1 1000 3000 3000 50 50).1 < 50 := by
  have h : calculateTargetSize 1 1000 3000 3000 50 50 = (3, 3000) := by
    norm_num [calculateTargetSize, upscaleToMin, downscaleToMax, jsRound]
  refine ⟨h, ?_⟩
  rw [h]
  decide

/-- Claim C8 as amended: for positive source dimensions and bounds with
`1 ≤ minW ≤ maxW` and `1 ≤ minH ≤ maxH`, the output of
`calculateTargetSize` always satisfies the maximums (`w ≤ maxW`,
`h ≤ maxH`); the minimums are met by the upscale step, and persist in the
final output whenever the upscaled size needs no downscale — but when the
aspect ratio forces a downscale the minimum on the other axis can be
violated (see the counterexample). -/
theorem calculateTargetSize_bounds_amended
    (w h maxW maxH minW minH : ℤ)
    (hw : 1 ≤ w) (hh : 1 ≤ h) (hminW : 1 ≤ minW) (hminH : 1 ≤ minH)
    (hWm : minW ≤ maxW) (hHm : minH ≤ maxH) :
    (calculateTargetSize w h maxW maxH minW minH).1 ≤ maxW ∧
    (calculateTargetSize w h maxW maxH minW minH).2 ≤ maxH ∧
    minW ≤ (upscaleToMin w h minW minH).1 ∧
    minH ≤ (upscaleToMin w h minW minH).2 ∧
    ((upscaleToMin w h minW minH).1 ≤ maxW → (upscaleToMin w h minW minH).2 ≤ maxH →
      minW ≤ (calculateTargetSize w h maxW maxH minW minH).1 ∧
      minH ≤ (calculateTargetSize w h maxW maxH minW minH).2) := by
  obtain ⟨hA1, hA2⟩ := @upscaleToMin_meets_min w h minW minH hw hh
  have ha1 : 1 ≤ (upscaleToMin w h minW minH).1 := le_trans hminW hA1
  have ha2 : 1 ≤ (upscaleToMin w h minW minH).2 := le_trans hminH hA2
  obtain ⟨hB1, hB2⟩ :=
    @downscaleToMax_meets_max (upscaleToMin w h minW minH).1 (upscaleToMin w h minW minH).2 maxW maxH ha1 ha2
  refine ⟨hB1, hB2, hA1, hA2, ?_⟩
  intro hle1 hle2
  have hfix : calculateTargetSize w h maxW maxH minW minH = upscaleToMin w h minW minH := by
    show downscaleToMax (upscaleToMin w h minW minH).1 (upscaleToMin w h minW minH).2 maxW maxH
        = upscaleToMin w h minW minH
    unfold downscaleToMax
    rw [if_neg (by push_neg; exact ⟨hle1, hle2⟩)]
  rw [hfix]
  exact ⟨hA1, hA2⟩

/-- Witness for C8 (amended): a 100×100 source with bounds
`(50, 50, 3000, 3000)` keeps both bounds. -/
theorem calculateTargetSize_bounds_amended_witness :
    ((1 : ℤ) ≤ 100 ∧ (1 : ℤ) ≤ 50 ∧ (50 : ℤ) ≤ 3000) ∧
    ((calculateTargetSize 100 100 3000 3000 50 50).1 ≤ 3000 ∧
     (calculateTargetSize 100 100 3000 3000 50 50).2 ≤ 3000 ∧
     50 ≤ (upscaleToMin 100 100 50 50).1 ∧
     50 ≤ (upscaleToMin 100 100 50 50).2 ∧
     ((upscaleToMin 100 100 50 50).1 ≤ 3000 → (upscaleToMin 100 100 50 50).2 ≤ 3000 →
       50 ≤ (calculateTargetSize 100 100 3000 3000 50 50).1 ∧
       50 ≤ (calculateTargetSize 100 100 3000 3000 50 50).2)) :=
  ⟨⟨by decide, by decide, by decide⟩,
    calculateTargetSize_bounds_amended 100 100 3000 3000 50 50
      (by decide) (by decide) (by decide) (by decide) (by decide) (by decide)⟩

theorem tryCompress_first_fit (encode : ℚ → ℕ) (maxSizeBytes : ℚ) (q : ℚ) (a : ℕ)
    (h : (encode q : ℚ) ≤ maxSizeBytes) :
    tryCompress encode maxSizeBytes q a = ((q, encode q), 1) := by
  rw [tryCompress]
  simp [h]

theorem tryCompress_count (encode : ℚ → ℕ) (maxSizeBytes : ℚ) :
    ∀ n a q, a + n = 3 → (tryCompress encode maxSizeBytes q a).2 + a ≤ 4 := by
  intro n
  induction n with
  | zero =>
    intro a q ha
    rw [tryCompress]
    have h3 : (3 : ℕ) ≤ a := by omega
    simp [h3]
    omega
  | succ k ih =>
    intro a q ha
    rw [tryCompress]
    by_cases hc : (encode q : ℚ) ≤ maxSizeBytes ∨ 3 ≤ a
    · simp [hc]
      omega
    · simp only [hc, if_false]
      have h2 := ih (a + 1) (max (1/10) (q - 1/10)) (by omega)
      omega

theorem tryCompress_result_is_encoding (encode : ℚ → ℕ) (maxSizeBytes : ℚ) :
    ∀ n a q, a + n = 3 →
      (tryCompress encode maxSizeBytes q a).1.2
        = encode (tryCompress encode maxSizeBytes q a).1.1 := by
  intro n
  induction n with
  | zero =>
    intro a q ha
    rw [tryCompress]
    have h3 : (3 : ℕ) ≤ a := by omega
    simp [h3]
  | succ k ih =>
    intro a q ha
    rw [tryCompress]
    by_cases hc : (encode q : ℚ) ≤ maxSizeBytes ∨ 3 ≤ a
    · simp [hc]
    · simp only [hc, if_false]
      exact ih (a + 1) (max (1/10) (q - 1/10)) (by omega)

theorem tryCompress_quality_floor (encode : ℚ → ℕ) (maxSizeBytes : ℚ) :
    ∀ n a q, a + n = 3 → 1/10 ≤ q →
      1/10 ≤ (tryCompress encode maxSizeBytes q a).1.1 := by
  intro n
  induction n with
  | zero =>
    intro a q ha hq
    rw [tryCompress]
    have h3 : (3 : ℕ) ≤ a := by omega
    simpa [h3] using hq
  | succ k ih =>
    intro a q ha hq
    rw [tryCompress]
    by_cases hc : (encode q : ℚ) ≤ maxSizeBytes ∨ 3 ≤ a
    · simpa [hc] using hq
    · simp only [hc, if_false]
      exact ih (a + 1) (max (1/10) (q - 1/10)) (by omega) (le_max_left _ _)

/-- Counterexample to C9: with a byte budget of 10 and an encoder whose
output always has size 11 (over budget at every quality), the loop started
at quality 0.9 performs 4 encodings — the initial one plus the 3 retries
the `attempts` counter allows — not at most 3; the returned encoding is
the 4th, at quality 0.6. -/
theorem compress_attempt_count_counterexample :
    compressToSize (fun _ => 11) 10 (9/10) = ((3/5, 11), 4) ∧
    3 < (compressToSize (fun _ => 11) 10 (9/10)).2 := by
  have h : compressToSize (fun _ => 11) 10 (9/10) = ((3/5, 11), 4) := by
    unfold compressToSize
    have h3 : tryCompress (fun _ => 11) 10 (3/5) 3 = ((3/5, 11), 1) := by
      rw [tryCompress]
      norm_num
    have h2 : tryCompress (fun _ => 11) 10 (7/10) 2 = ((3/5, 11), 2) := by
      rw [tryCompress]
      norm_num [h3]
    have h1 : tryCompress (fun _ => 11) 10 (4/5) 1 = ((3/5, 11), 3) := by
      rw [tryCompress]
      norm_num [h2]
    rw [tryCompress]
    norm_num [h1]
  refine ⟨h, ?_⟩
  rw [h]
  decide

theorem tryCompress_stop_exhausted (encode : ℚ → ℕ) (maxSizeBytes : ℚ) (q : ℚ) (a : ℕ)
    (ha : 3 ≤ a) : tryCompress encode maxSizeBytes q a = ((q, encode q), 1) := by
  rw [tryCompress]
  simp [ha]

theorem tryCompress_step (encode : ℚ → ℕ) (maxSizeBytes : ℚ) (q : ℚ) (a : ℕ)
    (hfit : ¬ ((encode q : ℚ) ≤ maxSizeBytes)) (ha : a < 3) :
    tryCompress encode maxSizeBytes q a
      = ((tryCompress encode maxSizeBytes (max (1/10) (q - 1/10)) (a + 1)).1,
         (tryCompress encode maxSizeBytes (max (1/10) (q - 1/10)) (a + 1)).2 + 1) := by
  rw [tryCompress]
  have hcond : ¬ ((encode q : ℚ) ≤ maxSizeBytes ∨ 3 ≤ a) := by
    rintro (h | h)
    · exact hfit h
    · omega
  simp [hcond]

theorem qualitySeq_succ (q : ℚ) (n : ℕ) :
    qualitySeq q (n + 1) = max (1/10) (qualitySeq q n - 1/10) := rfl

theorem qualitySeq_shift (q : ℚ) :
    ∀ i, qualitySeq (qualitySeq q 1) i = qualitySeq q (i + 1) := by
  intro i
  induction i with
  | zero => rfl
  | succ n ih => rw [qualitySeq_succ, ih, ← qualitySeq_succ]

theorem tryCompress_first_fit_general (encode : ℚ → ℕ) (maxSizeBytes : ℚ) :
    ∀ (k a : ℕ) (q : ℚ), a + k ≤ 3 →
      (∀ i, i < k → ¬ ((encode (qualitySeq q i) : ℚ) ≤ maxSizeBytes)) →
      ((encode (qualitySeq q k) : ℚ) ≤ maxSizeBytes) →
      tryCompress encode maxSizeBytes q a
        = ((qualitySeq q k, encode (qualitySeq q k)), k + 1) := by
  intro k
  induction k with
  | zero =>
    intro a q hk hbefore hfit
    exact tryCompress_first_fit encode maxSizeBytes q a hfit
  | succ n ih =>
    intro a q hk hbefore hfit
    have h0 : ¬ ((encode q : ℚ) ≤ maxSizeBytes) := hbefore 0 (by omega)
    rw [tryCompress_step encode maxSizeBytes q a h0 (by omega),
      show max (1/10) (q - 1/10) = qualitySeq q 1 from rfl]
    have ih2 := ih (a + 1) (qualitySeq q 1) (by omega)
      (fun i hi => by
        rw [qualitySeq_shift]
        exact hbefore (i + 1) (by omega))
      (by
        rw [qualitySeq_shift]
        exact hfit)
    rw [qualitySeq_shift] at ih2
    rw [ih2]

theorem tryCompress_all_over (encode : ℚ → ℕ) (maxSizeBytes : ℚ) :
    ∀ (k a : ℕ) (q : ℚ), a + k = 3 →
      (∀ i, i ≤ k → ¬ ((encode (qualitySeq q i) : ℚ) ≤ maxSizeBytes)) →
      tryCompress encode maxSizeBytes q a
        = ((qualitySeq q k, encode (qualitySeq q k)), k + 1) := by
  intro k
  induction k with
  | zero =>
    intro a q hk hover
    exact tryCompress_stop_exhausted encode maxSizeBytes q a (by omega)
  | succ n ih =>
    intro a q hk hover
    have h0 : ¬ ((encode q : ℚ) ≤ maxSizeBytes) := hover 0 (by omega)
    rw [tryCompress_step encode maxSizeBytes q a h0 (by omega),
      show max (1/10) (q - 1/10) = qualitySeq q 1 from rfl]
    have ih2 := ih (a + 1) (qualitySeq q 1) (by omega)
      (fun i hi => by
        rw [qualitySeq_shift]
        exact hover (i + 1) (by omega))
    rw [qualitySeq_shift] at ih2
    rw [ih2]

/-- Claim C9 as amended: the loop encodes at the qualities
`qualitySeq q 0, 1, 2, 3` (the estimated initial quality, then each retry
lowering by 0.1 with a floor of 0.1) and performs at most 4 encodings (the
initial encode plus up to 3 retries, as the `attempts` counter allows).
For every encoder: if the first `k` encodings (any `k ≤ 3`) exceed the
budget and the next one fits, it returns exactly that first fitting
encoding, having performed `k + 1` encodings; if all 4 encodings exceed
the budget it returns the 4th (last) attempt's actual encoding without
raising; the returned size is always the actual encoding of the returned
quality, and the quality never drops below the 0.1 floor. -/
theorem compressToSize_convergence_amended :
    (∀ (encode : ℚ → ℕ) (maxSizeBytes : ℚ) (q : ℚ) (k : ℕ), k ≤ 3 →
      (∀ i, i < k → ¬ ((encode (qualitySeq q i) : ℚ) ≤ maxSizeBytes)) →
      ((encode (qualitySeq q k) : ℚ) ≤ maxSizeBytes) →
      compressToSize encode maxSizeBytes q
        = ((qualitySeq q k, encode (qualitySeq q k)), k + 1)) ∧
    (∀ (encode : ℚ → ℕ) (maxSizeBytes : ℚ) (q : ℚ),
      (∀ i, i < 4 → ¬ ((encode (qualitySeq q i) : ℚ) ≤ maxSizeBytes)) →
      compressToSize encode maxSizeBytes q
        = ((qualitySeq q 3, encode (qualitySeq q 3)), 4)) ∧
    (∀ (encode : ℚ → ℕ) (maxSizeBytes : ℚ) (q : ℚ),
      (compressToSize encode maxSizeBytes q).2 ≤ 4) ∧
    (∀ (encode : ℚ → ℕ) (maxSizeBytes : ℚ) (q : ℚ),
      (compressToSize encode maxSizeBytes q).1.2
        = encode (compressToSize encode maxSizeBytes q).1.1) ∧
    (∀ (encode : ℚ → ℕ) (maxSizeBytes : ℚ) (q : ℚ),
      1/10 ≤ q → 1/10 ≤ (compressToSize encode maxSizeBytes q).1.1) := by
  refine ⟨?_, ?_, ?_, ?_, ?_⟩
  · intro encode maxSizeBytes q k hk hbefore hfit
    exact tryCompress_first_fit_general encode maxSizeBytes k 0 q (by omega) hbefore hfit
  · intro encode maxSizeBytes q hover
    exact tryCompress_all_over encode maxSizeBytes 3 0 q (by omega)
      (fun i hi => hover i (by omega))
  · intro encode maxSizeBytes q
    have h2 := tryCompress_count encode maxSizeBytes 3 0 q rfl
    unfold compressToSize
    omega
  · intro encode maxSizeBytes q
    exact tryCompress_result_is_encoding encode maxSizeBytes 3 0 q rfl
  · intro encode maxSizeBytes q hq
    exact tryCompress_quality_floor encode maxSizeBytes 3 0 q rfl hq

/-- Witness for C9 (amended): an initial encoding of size 5 against
budget 10 is returned immediately as the single encoding (first-fit at
`k = 0`), and a constant size-11 encoder against budget 10 runs all 4
encodings and returns the last one. -/
theorem compressToSize_convergence_amended_witness :
    (((fun _ => 5 : ℚ → ℕ) (qualitySeq (9/10) 0) : ℚ) ≤ 10) ∧
    compressToSize (fun _ => 5) 10 (9/10)
      = ((qualitySeq (9/10) 0, (fun _ => 5 : ℚ → ℕ) (qualitySeq (9/10) 0)), 0 + 1) ∧
    compressToSize (fun _ => 11) 10 (9/10)
      = ((qualitySeq (9/10) 3, (fun _ => 11 : ℚ → ℕ) (qualitySeq (9/10) 3)), 4) :=
  ⟨by decide,
    compressToSize_convergence_amended.1 (fun _ => 5) 10 (9/10) 0 (by decide)
      (fun i hi => absurd hi (Nat.not_lt_zero i)) (by decide),
    compressToSize_convergence_amended.2.1 (fun _ => 11) 10 (9/10)
      (fun i hi => (by decide : ¬ (((11 : ℕ) : ℚ) ≤ 10)))⟩

theorem authClassify_plainError (msg : String) :
    authClassify { name := "Error", message := msg } = { name := "Error", message := msg } := by
  simp [authClassify]

theorem authDataStep_obj_ne_null (fs : List (String × Json)) :
    authDataStep (.obj fs) ≠ .ok Json.null := by
  intro h
  unfold authDataStep at h
  cases hdata : (Json.obj fs).getField "data" with
  | some d =>
      simp only [hdata] at h
      cases d <;> simp at h
  | none =>
      simp only [hdata] at h
      simp at h

theorem authInterpret_ne_ok_null : ∀ j : Json, authInterpret j ≠ .ok Json.null := by
  intro j h
  cases j with
  | null => simp [authInterpret] at h
  | bool b => simp [authInterpret, authDataStep, Json.getField] at h
  | num n => simp [authInterpret, authDataStep, Json.getField] at h
  | str s => simp [authInterpret, authDataStep, Json.getField] at h
  | arr xs => simp [authInterpret, authDataStep, Json.getField] at h
  | obj fs =>
      simp only [authInterpret] at h
      cases hget : (Json.obj fs).getField "code" with
      | some c =>
          simp only [hget] at h
          by_cases hc : (!isNum200 c && !isNum0 c) = true
          · rw [if_pos hc] at h
            exact ApiResult.noConfusion h
          · rw [if_neg hc] at h
            exact authDataStep_obj_ne_null fs h
      | none =>
          simp only [hget] at h
          exact authDataStep_obj_ne_null fs h

/-- Claim C10: for the authentication wrapper `authRequest`, a 2xx
response whose envelope passes the code check but carries `data`
explicitly equal to `null` rejects with an error (carrying the envelope's
`message` when that field is a truthy value, and the default text when it
is absent or falsy); `authRequest` never resolves with `null` on any
transport outcome — unlike `apiRequest`, which resolves a `data: null`
envelope with `null`. -/
theorem authRequest_rejects_null_data :
    (∀ (status : ℕ) (stx : String) (fs : List (String × Json)),
      responseOk status = true →
      authCodeIsError (Json.obj fs) = false →
      (Json.obj fs).getField "data" = some .null →
      (authRequestModel (.response status stx (.jsonBody (.obj fs)))).errName = some "Error" ∧
      (∀ m, (Json.obj fs).getField "message" = some m → jsTruthy m = true →
        (authRequestModel (.response status stx (.jsonBody (.obj fs)))).errMessage
          = some (jsToString m)) ∧
      (fieldFalsy (Json.obj fs) "message" = true →
        (authRequestModel (.response status stx (.jsonBody (.obj fs)))).errMessage
          = some "请求失败，返回数据为空")) ∧
    (∀ fr : FetchResult, authRequestModel fr ≠ .ok Json.null) ∧
    ((apiRequestModel ⟨none, none⟩ false (.response 200 "OK"
        (.jsonBody (.obj [("code", .num 200), ("data", .null)])))).result = .ok Json.null ∧
     (authRequestModel (.response 200 "OK"
        (.jsonBody (.obj [("code", .num 200), ("data", .null)])))).errName = some "Error") := by
  refine ⟨?_, ?_, rfl, rfl⟩
  · intro status stx fs hok hcode hdata
    have hstep : authDataStep (.obj fs)
        = .err { name := "Error"
                 message := jsToString (fieldOr ((Json.obj fs).getField "message")
                   (.str "请求失败，返回数据为空")) } := by
      unfold authDataStep
      rw [hdata]
    have hinterp : authInterpret (.obj fs)
        = .err { name := "Error"
                 message := jsToString (fieldOr ((Json.obj fs).getField "message")
                   (.str "请求失败，返回数据为空")) } := by
      simp only [authInterpret]
      cases hget : (Json.obj fs).getField "code" with
      | some c =>
          unfold authCodeIsError at hcode
          rw [hget] at hcode
          simp only [] at hcode
          simp only []
          rw [if_neg (by rw [hcode]; exact Bool.false_ne_true)]
          exact hstep
      | none =>
          simp only []
          exact hstep
    have hmodel : authRequestModel (.response status stx (.jsonBody (.obj fs)))
        = .err { name := "Error"
                 message := jsToString (fieldOr ((Json.obj fs).getField "message")
                   (.str "请求失败，返回数据为空")) } := by
      simp only [authRequestModel, hok, if_true, hinterp, authClassify_plainError]
    refine ⟨by rw [hmodel]; rfl, ?_, ?_⟩
    · intro m hm htr
      rw [hmodel]
      show some (jsToString (fieldOr ((Json.obj fs).getField "message")
        (.str "请求失败，返回数据为空"))) = some (jsToString m)
      rw [fieldOr_truthy _ _ hm htr]
    · intro hfal
      rw [hmodel]
      show some (jsToString (fieldOr ((Json.obj fs).getField "message")
        (.str "请求失败，返回数据为空"))) = some "请求失败，返回数据为空"
      rw [fieldOr_falsy _ (fieldFalsy_skip hfal)]
      rfl
  · intro fr h
    cases fr with
    | abortError => simp [authRequestModel] at h
    | typeError msg => simp [authRequestModel] at h
    | response status stx body =>
        by_cases hok : responseOk status = true
        · cases body with
          | invalidBody pm txt => simp [authRequestModel, hok] at h
          | jsonBody j =>
              simp only [authRequestModel, hok, if_true] at h
              cases hint : authInterpret j with
              | ok v =>
                  simp only [hint] at h
                  rw [h] at hint
                  exact authInterpret_ne_ok_null j hint
              | err e =>
                  simp only [hint] at h
                  exact ApiResult.noConfusion h
        · simp [authRequestModel, hok] at h

/-- Witness for C10: HTTP 200 with envelope
`{code: 200, data: null, message: "no data"}` rejects with an `Error`. -/
theorem authRequest_rejects_null_data_witness :
    responseOk 200 = true ∧
    authCodeIsError (.obj [("code", .num 200), ("data", .null), ("message", .str "no data")]) = false ∧
    (Json.obj [("code", .num 200), ("data", .null), ("message", .str "no data")]).getField "data"
      = some .null ∧
    (authRequestModel (.response 200 "OK" (.jsonBody
      (.obj [("code", .num 200), ("data", .null), ("message", .str "no data")])))).errName
      = some "Error" := by
  refine ⟨by decide, by rfl, by rfl, ?_⟩
  exact ((authRequest_rejects_null_data.1 200 "OK"
    [("code", .num 200), ("data", .null), ("message", .str "no data")]
    (by decide) (by rfl) (by rfl)).1)

end WardrobeSpec
